import Mathlib

/-!
Verification development for the career-recommendations API route
(`app/api/recommendations/route.ts`).

The route's `POST` handler is embedded as a pure function over an explicit
environment (profile-store answers, the `role_recommendations` table, the
model-service outcome).  JavaScript JSON values are modelled by an inductive
type in which string and number tokens keep their raw source lexemes; no
property proved here depends on numeric evaluation or escape decoding.
`JSON.parse` is modelled twice, once as an executable recursive-descent
function (used inside the pipeline) and once as a relational grammar (used to
quantify over all strict well-formed JSON texts).
-/

/-- Model of a JavaScript JSON value.  `num` and `str` keep the raw lexeme
(for `str`, the undecoded text between the quotes). -/
inductive Json where
  | null : Json
  | bool (b : Bool) : Json
  | num (lex : String) : Json
  | str (s : String) : Json
  | arr (elems : List Json) : Json
  | obj (members : List (String × Json)) : Json

mutual

/-- Structural equality test on JSON values (the store's key comparison). -/
def Json.beq : Json → Json → Bool
  | .null, .null => true
  | .bool a, .bool b => a = b
  | .num a, .num b => a = b
  | .str a, .str b => a = b
  | .arr a, .arr b => Json.beqList a b
  | .obj a, .obj b => Json.beqMembers a b
  | _, _ => false

def Json.beqList : List Json → List Json → Bool
  | [], [] => true
  | a :: as, b :: bs => Json.beq a b && Json.beqList as bs
  | _, _ => false

def Json.beqMembers : List (String × Json) → List (String × Json) → Bool
  | [], [] => true
  | (k1, v1) :: as, (k2, v2) :: bs =>
    k1 = k2 && Json.beq v1 v2 && Json.beqMembers as bs
  | _, _ => false

end

/-- A JSON numeric literal denotes zero exactly when every mantissa digit is
`0` (the sign and the exponent are irrelevant). -/
def numLexZero (lex : String) : Bool :=
  (lex.data.takeWhile (fun c => c ≠ 'e' ∧ c ≠ 'E')).all
    (fun c => c = '0' ∨ c = '-' ∨ c = '.')

/-- JavaScript truthiness test on a JSON value: `null`, `false`, `0` and the
empty string are falsy; every array and object (even empty) is truthy. -/
def jsonFalsy : Json → Bool
  | .null => true
  | .bool b => !b
  | .num lex => numLexZero lex
  | .str s => s.isEmpty
  | .arr _ => false
  | .obj _ => false

/-- Property access `j[key]` on a non-null JavaScript value: objects yield the
last binding of the key (`JSON.parse` keeps the last duplicate), anything else
yields `undefined`, modelled as `none`. -/
def jLookup (j : Json) (key : String) : Option Json :=
  match j with
  | .obj ms => (ms.reverse.find? (fun kv => kv.1 = key)).map (fun kv => kv.2)
  | _ => none

/-- Destructuring `const { userId } = body`: throws a `TypeError` when the
parsed body is `null`, otherwise yields the `userId` property (or
`undefined`). -/
def jGetUserId : Json → Except Unit (Option Json)
  | .null => .error ()
  | .obj ms => .ok ((ms.reverse.find? (fun kv => kv.1 = "userId")).map (fun kv => kv.2))
  | _ => .ok none

/-! ### Character classes -/

/-- Insignificant whitespace accepted by the JSON grammar. -/
def isJsonWs (c : Char) : Bool :=
  c = ' ' ∨ c = '\t' ∨ c = '\n' ∨ c = '\r'

/-- The character class matched by JavaScript `\s` (also the set stripped by
`String.prototype.trim`): ASCII whitespace plus the Unicode space separators,
line separators, NBSP and BOM. -/
def isSpaceJS (c : Char) : Bool :=
  c.toNat = 0x20 ∨ (0x9 ≤ c.toNat ∧ c.toNat ≤ 0xd) ∨ c.toNat = 0xa0 ∨
  c.toNat = 0x1680 ∨ (0x2000 ≤ c.toNat ∧ c.toNat ≤ 0x200a) ∨
  c.toNat = 0x2028 ∨ c.toNat = 0x2029 ∨ c.toNat = 0x202f ∨
  c.toNat = 0x205f ∨ c.toNat = 0x3000 ∨ c.toNat = 0xfeff

def isDigitC (c : Char) : Bool := '0' ≤ c ∧ c ≤ '9'

def isDigit19 (c : Char) : Bool := '1' ≤ c ∧ c ≤ '9'

def isHexC (c : Char) : Bool :=
  isDigitC c ∨ ('a' ≤ c ∧ c ≤ 'f') ∨ ('A' ≤ c ∧ c ≤ 'F')

/-- Characters that may follow a backslash in a JSON string (besides `u`). -/
def escCharOk (c : Char) : Bool :=
  c = '"' ∨ c = '\\' ∨ c = '/' ∨ c = 'b' ∨ c = 'f' ∨ c = 'n' ∨ c = 'r' ∨ c = 't'

/-! ### The response-cleaning steps of the route (lines 153-167)

`trim`, the two markdown-fence strips, and the extraction of the first
`/\[\s*\{[\s\S]*\}\s*\]/` regex match are modelled on `List Char`. -/

/-- JavaScript `String.prototype.trim`. -/
def jsTrimChars (cs : List Char) : List Char :=
  ((cs.dropWhile isSpaceJS).reverse.dropWhile isSpaceJS).reverse

/-- Does the first list start with the second? -/
def listStartsWith : List Char → List Char → Bool
  | _, [] => true
  | [], _ :: _ => false
  | c :: cs, p :: ps => c = p && listStartsWith cs ps

/-- Remove the first occurrence of the literal pattern `pat`, as
`String.prototype.replace` with a non-global literal regex does. -/
def replaceFirst (pat : List Char) : List Char → List Char
  | [] => []
  | c :: cs =>
    if listStartsWith (c :: cs) pat then (c :: cs).drop pat.length
    else c :: replaceFirst pat cs

/-- Remove the pattern `pat` from the end of the string if present, as
`replace` with an end-anchored regex (`/\n```$/`) does. -/
def dropEndSeq (pat cs : List Char) : List Char :=
  if listStartsWith cs.reverse pat.reverse then cs.take (cs.length - pat.length)
  else cs

/-- After `[` was consumed: `\s*\{`; returns the whitespace run and the text
after the `{`. -/
def wsBrace : List Char → Option (List Char × List Char)
  | [] => none
  | c :: tl =>
    if c = '{' then some ([], tl)
    else if isSpaceJS c then (wsBrace tl).map (fun pr => (c :: pr.1, pr.2))
    else none

/-- On a reversed string: skip `\s*` and consume the `}`. -/
def revSkipToBrace : List Char → Option (List Char)
  | [] => none
  | c :: tl =>
    if c = '}' then some tl
    else if isSpaceJS c then revSkipToBrace tl
    else none

/-- On a reversed string: does it start with `]` `\s*` `}` (i.e. does the
original end with `\}\s*\]`)? -/
def revCloseHead : List Char → Bool
  | ']' :: tl => (revSkipToBrace tl).isSome
  | _ => false

/-- On a reversed string, find the longest prefix of the original that ends in
`\}\s*\]` (the greedy `[\s\S]*` backtracks to the last possible close);
returns that prefix reversed. -/
def greedyCloseRev : List Char → Option (List Char)
  | [] => none
  | c :: tl =>
    if revCloseHead (c :: tl) then some (c :: tl) else greedyCloseRev tl

/-- Longest prefix of `cs` of the form `[\s\S]*\}\s*\]`. -/
def greedyClose (cs : List Char) : Option (List Char) :=
  (greedyCloseRev cs.reverse).map List.reverse

/-- Try to match `/\[\s*\{[\s\S]*\}\s*\]/` starting exactly at the head of
`cs`, with the greedy star. -/
def tryOpen : List Char → Option (List Char)
  | '[' :: tl =>
    match wsBrace tl with
    | some (w, rest) =>
      match greedyClose rest with
      | some body => some ('[' :: w ++ '{' :: body)
      | none => none
    | none => none
  | _ => none

/-- Leftmost match of `/\[\s*\{[\s\S]*\}\s*\]/` in `cs` (the JavaScript
`String.prototype.match` semantics for a non-global regex). -/
def findMatch : List Char → Option (List Char)
  | [] => none
  | c :: tl =>
    match tryOpen (c :: tl) with
    | some m => some m
    | none => findMatch tl

/-- The cleaning applied to the raw model reply before `JSON.parse`:
trim, strip markdown fences, extract the first array-of-objects match. -/
def cleanChars (cs : List Char) : List Char :=
  let t := jsTrimChars cs
  let t2 :=
    if listStartsWith t ("```json".data) then
      dropEndSeq ("\n```".data) (replaceFirst ("```json\n".data) t)
    else if listStartsWith t ("```".data) then
      dropEndSeq ("\n```".data) (replaceFirst ("```\n".data) t)
    else t
  match findMatch t2 with
  | some m => m
  | none => t2

def cleanJson (s : String) : String := ⟨cleanChars s.data⟩

/-! ### Executable model of `JSON.parse` (recursive descent with fuel) -/

/-- String body scanner: consumes the undecoded content up to the closing
quote, rejecting raw control characters and malformed escapes. -/
def pStrBodyGo : List Char → List Char → Option (String × List Char)
  | acc, '"' :: r => some (⟨acc.reverse⟩, r)
  | acc, '\\' :: e :: r =>
    if e = 'u' then
      match r with
      | a :: b :: c :: d :: r2 =>
        if isHexC a && isHexC b && isHexC c && isHexC d then
          pStrBodyGo (d :: c :: b :: a :: 'u' :: '\\' :: acc) r2
        else none
      | _ => none
    else if escCharOk e then pStrBodyGo (e :: '\\' :: acc) r
    else none
  | acc, c :: r => if c ≠ '"' ∧ c ≠ '\\' ∧ 32 ≤ c.toNat then pStrBodyGo (c :: acc) r else none
  | _, [] => none

/-- Fractional part `(\.\d+)?` of a JSON number. -/
def pFrac : List Char → Option (List Char × List Char)
  | '.' :: tl =>
    match tl with
    | c :: _ =>
      if isDigitC c then some ('.' :: tl.takeWhile isDigitC, tl.dropWhile isDigitC)
      else none
    | [] => none
  | cs => some ([], cs)

/-- Exponent part `([eE][+-]?\d+)?` of a JSON number. -/
def pExp : List Char → Option (List Char × List Char)
  | c :: tl =>
    if c = 'e' ∨ c = 'E' then
      match (match tl with
             | s :: tl2 => if s = '+' ∨ s = '-' then (some s, tl2) else (none, tl)
             | [] => (none, tl) : Option Char × List Char) with
      | (sgn, tl2) =>
        match tl2 with
        | d :: _ =>
          if isDigitC d then
            some (c :: (match sgn with | some s => [s] | none => []) ++
                    tl2.takeWhile isDigitC,
                  tl2.dropWhile isDigitC)
          else none
        | [] => none
    else some ([], c :: tl)
  | [] => some ([], [])

/-- Number token per the JSON grammar `-?(0|[1-9]\d*)(\.\d+)?([eE][+-]?\d+)?`,
maximal munch; returns the lexeme and the rest. -/
def pNum (cs : List Char) : Option (String × List Char) :=
  match (match cs with
         | '-' :: tl => (['-'], tl)
         | _ => ([], cs) : List Char × List Char) with
  | (sign, cs1) =>
    match cs1 with
    | '0' :: tl =>
      match pFrac tl with
      | some (f, r1) =>
        match pExp r1 with
        | some (e, r2) => some (⟨sign ++ '0' :: (f ++ e)⟩, r2)
        | none => none
      | none => none
    | c :: tl =>
      if isDigit19 c then
        match pFrac (tl.dropWhile isDigitC) with
        | some (f, r1) =>
          match pExp r1 with
          | some (e, r2) =>
            some (⟨sign ++ c :: (tl.takeWhile isDigitC ++ f ++ e)⟩, r2)
          | none => none
        | none => none
      else none
    | [] => none

mutual

/-- Parse one JSON value (leading whitespace already skipped). -/
def pVal : Nat → List Char → Option (Json × List Char)
  | 0, _ => none
  | Nat.succ fuel, cs =>
    match cs with
    | 'n' :: 'u' :: 'l' :: 'l' :: r => some (.null, r)
    | 't' :: 'r' :: 'u' :: 'e' :: r => some (.bool true, r)
    | 'f' :: 'a' :: 'l' :: 's' :: 'e' :: r => some (.bool false, r)
    | '"' :: r => (pStrBodyGo [] r).map (fun pr => (.str pr.1, pr.2))
    | '[' :: r => pArrBody fuel (r.dropWhile isJsonWs)
    | '{' :: r => pObjBody fuel (r.dropWhile isJsonWs)
    | _ => (pNum cs).map (fun pr => (.num pr.1, pr.2))

/-- After `[` and whitespace: an immediate `]` or the first element. -/
def pArrBody : Nat → List Char → Option (Json × List Char)
  | 0, _ => none
  | Nat.succ fuel, cs =>
    match cs with
    | ']' :: r => some (.arr [], r)
    | _ =>
      match pVal fuel cs with
      | some (v, r1) => pArrTailGo fuel (r1.dropWhile isJsonWs) [v]
      | none => none

/-- After an element and whitespace: `]` closes, `,` continues. -/
def pArrTailGo : Nat → List Char → List Json → Option (Json × List Char)
  | 0, _, _ => none
  | Nat.succ fuel, cs, acc =>
    match cs with
    | ']' :: r => some (.arr acc.reverse, r)
    | ',' :: r =>
      match pVal fuel (r.dropWhile isJsonWs) with
      | some (v, r1) => pArrTailGo fuel (r1.dropWhile isJsonWs) (v :: acc)
      | none => none
    | _ => none

/-- After `{` and whitespace: an immediate `}` or the first member. -/
def pObjBody : Nat → List Char → Option (Json × List Char)
  | 0, _ => none
  | Nat.succ fuel, cs =>
    match cs with
    | '}' :: r => some (.obj [], r)
    | _ => pMember fuel cs []

/-- One `"key" \s* : \s* value` member, then the object tail. -/
def pMember : Nat → List Char → List (String × Json) → Option (Json × List Char)
  | 0, _, _ => none
  | Nat.succ fuel, cs, acc =>
    match cs with
    | '"' :: r =>
      match pStrBodyGo [] r with
      | some (k, r1) =>
        match r1.dropWhile isJsonWs with
        | ':' :: r2 =>
          match pVal fuel (r2.dropWhile isJsonWs) with
          | some (v, r3) => pObjTailGo fuel (r3.dropWhile isJsonWs) ((k, v) :: acc)
          | none => none
        | _ => none
      | none => none
    | _ => none

/-- After a member and whitespace: `}` closes, `,` continues. -/
def pObjTailGo : Nat → List Char → List (String × Json) → Option (Json × List Char)
  | 0, _, _ => none
  | Nat.succ fuel, cs, acc =>
    match cs with
    | '}' :: r => some (.obj acc.reverse, r)
    | ',' :: r => pMember fuel (r.dropWhile isJsonWs) acc
    | _ => none

end

/-- Executable model of `JSON.parse`: `none` models a thrown `SyntaxError`. -/
def parseJsonF (s : String) : Option Json :=
  let cs := s.data.dropWhile isJsonWs
  match pVal (2 * cs.length + 4) cs with
  | some (v, r) => if (r.dropWhile isJsonWs).isEmpty then some v else none
  | none => none

/-! ### The route's fixed data and collaborating stores -/

/-- The hardcoded fallback set (route lines 23-42), transliterated verbatim. -/
def defaultRecommendations : List Json :=
  [ .obj
      [ ("role_title", .str "Software Developer"),
        ("description", .str "Software developers create applications and systems that run on computers and other devices. They design, code, test, and maintain software solutions for various problems and needs."),
        ("why_it_fits_professionally", .str "Your technical skills and problem-solving abilities would make you a strong candidate for software development roles. Your experience with analytical thinking aligns well with the core competencies needed."),
        ("why_it_fits_personally", .str "Your interest in creating solutions and solving complex problems makes software development a fulfilling career path that matches your personal interests.") ],
    .obj
      [ ("role_title", .str "Data Analyst"),
        ("description", .str "Data analysts examine datasets to identify trends and draw conclusions. They present findings to help organizations make better business decisions."),
        ("why_it_fits_professionally", .str "Your analytical thinking skills and attention to detail would serve you well as a data analyst. This role leverages your abilities to find patterns and insights in complex information."),
        ("why_it_fits_personally", .str "Your curiosity and interest in uncovering insights from information makes data analysis a personally satisfying career that aligns with your values.") ],
    .obj
      [ ("role_title", .str "Product Manager"),
        ("description", .str "Product managers oversee the development of products from conception to launch. They define product strategy, gather requirements, and coordinate with different teams to ensure successful delivery."),
        ("why_it_fits_professionally", .str "Your combination of technical understanding and strategic planning abilities makes product management a good professional fit. This role utilizes both your analytical and communication skills."),
        ("why_it_fits_personally", .str "Your interest in both the business and technical aspects of products, along with your desire to create meaningful solutions, aligns well with product management.") ] ]

/-- Outcome of the single model invocation: a thrown transport error or abort
(`apiError`, which includes the 5000 ms timeout firing), a response carrying
no body, or a response whose first choice has the given message content. -/
inductive ModelOutcome where
  | throwErr : ModelOutcome
  | noBody : ModelOutcome
  | ok (content : String) : ModelOutcome

/-- A persisted row of the `role_recommendations` table.  Field values are
`Option Json`: `none` models a column that was never supplied (an `undefined`
field at insert time). -/
structure CacheRow where
  user_id : Json
  created_at : Nat
  role_title : Option Json
  description : Option Json
  why_it_fits_professionally : Option Json
  why_it_fits_personally : Option Json

/-- Answers of the external collaborators for one request: the profile fetch
(`.error` = Supabase `profileError`, `.ok dd` = the `discovery_data` value,
`none` meaning SQL `NULL`), the current contents of `role_recommendations`,
whether the cache query errors, the model outcome, and the insert
timestamp. -/
structure Env where
  profileFetch : Except Unit (Option Json)
  roleTable : List CacheRow
  cacheError : Bool
  model : ModelOutcome
  now : Nat

/-- The two response shapes the handler can produce: the 400 error body for a
missing `userId`, or a 200 body `{ recommendations: [...] }`. -/
inductive ApiResponse where
  | badRequest : ApiResponse
  | ok (recommendations : List Json) : ApiResponse

/-- Result of one handler run: the response plus the externally observable
effects (store reads, model invocation, rows appended to the
`role_recommendations` table). -/
structure PipeResult where
  response : ApiResponse
  profileRead : Bool
  cacheRead : Bool
  modelInvoked : Bool
  writes : List CacheRow

/-- Newest-first comparison used by `.order("created_at", descending)`. -/
def newerFirst (a b : CacheRow) : Prop := b.created_at ≤ a.created_at

instance : DecidableRel newerFirst :=
  fun a b => inferInstanceAs (Decidable (b.created_at ≤ a.created_at))

instance : IsTotal CacheRow newerFirst :=
  ⟨fun a b => Nat.le_total b.created_at a.created_at⟩

instance : IsTrans CacheRow newerFirst :=
  ⟨fun _ _ _ h1 h2 => Nat.le_trans h2 h1⟩

/-- The cache query (route lines 77-82): rows of the user, ordered by
`created_at` descending, limited to 3. -/
def fetchCached (tbl : List CacheRow) (uid : Json) : List CacheRow :=
  ((tbl.filter (fun r => Json.beq r.user_id uid)).insertionSort newerFirst).take 3

/-- Projection of a cached row to the four response fields (lines 86-91). -/
def formatCachedRec (item : CacheRow) : Json :=
  .obj
    [ ("role_title", item.role_title.getD .null),
      ("description", item.description.getD .null),
      ("why_it_fits_professionally", item.why_it_fits_professionally.getD .null),
      ("why_it_fits_personally", item.why_it_fits_personally.getD .null) ]

/-- The insert payload built from one recommendation (lines 191-197):
each field is the property of the parsed value, `undefined` when missing. -/
def insertRow (uid : Json) (now : Nat) (r : Json) : CacheRow :=
  ⟨uid, now,
    jLookup r "role_title", jLookup r "description",
    jLookup r "why_it_fits_professionally", jLookup r "why_it_fits_personally"⟩

/-- The persistence loop (lines 189-202).  Accessing `.role_title` on a `null`
element throws; the `saveError` catch then abandons the loop, keeping the rows
already inserted.  Insert results themselves are never checked. -/
def persistLoop (uid : Json) (now : Nat) : List Json → List CacheRow
  | [] => []
  | .null :: _ => []
  | r :: tl => insertRow uid now r :: persistLoop uid now tl

/-! ### Prompt construction (route lines 96-123) -/

/-- JavaScript `x || d`: the default replaces any falsy (or absent) value. -/
def jsOrElse : Option Json → Json → Json
  | none, d => d
  | some v, d => if jsonFalsy v then d else v

/-- One facet of `formattedData`: `discoveryData.<name>.selected || []` and
`discoveryData.<name>.additional_info || ""`.  Accessing `.selected` throws a
`TypeError` when the facet itself is absent (`undefined`) or `null`. -/
def facetFmt (dd : Json) (nm : String) : Except Unit (Json × Json) :=
  match jLookup dd nm with
  | none => .error ()
  | some .null => .error ()
  | some f =>
    .ok (jsOrElse (jLookup f "selected") (.arr []),
         jsOrElse (jLookup f "additional_info") (.str ""))

mutual

/-- Element coercion of `Array.prototype.join`: `null` becomes the empty
string, primitives their string form, arrays join recursively, plain objects
print as `[object Object]`. -/
def jsElemStr : Json → String
  | .null => ""
  | .str s => s
  | .num lex => lex
  | .bool b => if b then "true" else "false"
  | .arr l => jsElemStrList l
  | .obj _ => "[object Object]"

def jsElemStrList : List Json → String
  | [] => ""
  | [x] => jsElemStr x
  | x :: xs => jsElemStr x ++ "," ++ jsElemStrList xs

end

/-- `selected.join(", ")`: throws when `selected` is not an array (a truthy
non-array value has no `join` method). -/
def jsJoin : Json → Except Unit String
  | .arr l => .ok (String.intercalate ", " (l.map jsElemStr))
  | _ => .error ()

/-- The fixed system directive of the prompt (route line 115). -/
def systemPrompt : String :=
  "Generate exactly 3 career roles as a JSON array based on the user's profile. Each object should have: role_title, description, why_it_fits_professionally, why_it_fits_personally. Be concise. Format: [{...},{...},{...}]."

/-- Builds the user-message context string from the discovery data, or throws
(`.error`) where the route would raise a `TypeError` (lines 96-123).  The
template literal's embedded newlines and indentation are kept verbatim. -/
def buildUserContent (dd : Json) : Except Unit String := do
  let sk ← facetFmt dd "skills"
  let va ← facetFmt dd "values"
  let it ← facetFmt dd "interests"
  let sks ← jsJoin sk.1
  let its ← jsJoin it.1
  let vas ← jsJoin va.1
  .ok ("Skills: " ++ sks ++ "\n         Interests: " ++ its ++
       "\n         Values: " ++ vas)

/-! ### Response normalization and the handler -/

/-- Normalization of the raw model content (route lines 146-186): clean the
text, `JSON.parse` it, pass arrays through unchanged, wrap a lone
`typeof == "object"` value (including `null`) in a singleton, and fall back to
the defaults when parsing throws or yields a primitive. -/
def parseStage (content : String) : List Json :=
  match parseJsonF (cleanJson content) with
  | none => defaultRecommendations
  | some v =>
    match v with
    | .arr l => l
    | .obj ms => [Json.obj ms]
    | .null => [Json.null]
    | _ => defaultRecommendations

/-- The request-validation test `!userId`: an absent (`undefined`) or falsy
`userId` is rejected. -/
def jsFalsyOpt : Option Json → Bool
  | none => true
  | some u => jsonFalsy u

/-- The `POST` handler (route lines 44-216) over an environment and the parsed
request body (`.error` models a body that is not valid JSON, whose parse
exception reaches the outermost catch). -/
def POST (env : Env) (body : Except Unit Json) : PipeResult :=
  match body with
  | .error _ => ⟨.ok defaultRecommendations, false, false, false, []⟩
  | .ok b =>
    match jGetUserId b with
    | .error _ => ⟨.ok defaultRecommendations, false, false, false, []⟩
    | .ok userId? =>
      if jsFalsyOpt userId? then
        ⟨.badRequest, false, false, false, []⟩
      else
        let uid := userId?.getD .null
        match env.profileFetch with
        | .error _ => ⟨.ok defaultRecommendations, true, false, false, []⟩
        | .ok none => ⟨.ok defaultRecommendations, true, false, false, []⟩
        | .ok (some dd) =>
          if jsonFalsy dd then ⟨.ok defaultRecommendations, true, false, false, []⟩
          else
            let cached := fetchCached env.roleTable uid
            if !env.cacheError && !cached.isEmpty then
              ⟨.ok (cached.map formatCachedRec), true, true, false, []⟩
            else
              match buildUserContent dd with
              | .error _ => ⟨.ok defaultRecommendations, true, true, false, []⟩
              | .ok _ =>
                match env.model with
                | .throwErr => ⟨.ok defaultRecommendations, true, true, true, []⟩
                | .noBody => ⟨.ok defaultRecommendations, true, true, true, []⟩
                | .ok content =>
                  let recs := parseStage content
                  ⟨.ok recs, true, true, true, persistLoop uid env.now recs⟩

/-! ### Concrete fixtures used by witnesses and counterexamples -/

/-- A request body carrying a non-empty `userId`. -/
def bodyFixture : Json := .obj [("userId", .str "user-1")]

/-- A complete discovery-data profile (all three facets present). -/
def ddFixture : Json :=
  .obj [("skills", .obj [("selected", .arr [.str "coding"])]),
        ("values", .obj [("selected", .arr [.str "impact"])]),
        ("interests", .obj [("selected", .arr [.str "data"])])]

/-- A discovery-data profile in which the `values` and `interests` facets are
entirely absent. -/
def ddPartial : Json := .obj [("skills", .obj [("selected", .arr [.str "coding"])])]

/-- An environment that reaches the generation stage: profile present, cache
empty, model outcome as given. -/
def genEnv (m : ModelOutcome) : Env := ⟨.ok (some ddFixture), [], false, m, 7⟩

/-- Two cached rows for `user-1`, the second newer. -/
def rowA : CacheRow :=
  ⟨.str "user-1", 5, some (.str "Dev"), some (.str "d1"), some (.str "p1"), some (.str "q1")⟩

def rowB : CacheRow :=
  ⟨.str "user-1", 9, some (.str "Analyst"), some (.str "d2"), some (.str "p2"), some (.str "q2")⟩

/-! ### Relational grammar of strict JSON texts

`ValT t v` holds when the character list `t` is exactly one strict JSON text
denoting `v`, with interior whitespace where the JSON grammar allows it and
none outside.  This is the specification of what `JSON.parse` accepts, used
to quantify over all strict well-formed JSON strings. -/

/-- Every character is insignificant JSON whitespace. -/
def allJsonWs (w : List Char) : Bool := w.all isJsonWs

/-- Well-formedness of the raw (undecoded) body of a JSON string literal:
no unescaped quote or backslash, no control character, escapes well formed. -/
def strBodyOk : List Char → Bool
  | [] => true
  | '\\' :: tl =>
    match tl with
    | 'u' :: a :: b :: c :: d :: tl2 =>
      isHexC a && isHexC b && isHexC c && isHexC d && strBodyOk tl2
    | e :: tl2 => escCharOk e && strBodyOk tl2
    | [] => false
  | c :: tl => decide (c ≠ '"') && decide (32 ≤ c.toNat) && strBodyOk tl

/-- A full JSON numeric literal (the number grammar, completely consumed). -/
def numLexOk (cs : List Char) : Bool :=
  match pNum cs with
  | some (_, r) => r.isEmpty
  | none => false

mutual

inductive ValT : List Char → Json → Prop where
  | nullT : ValT ['n', 'u', 'l', 'l'] .null
  | trueT : ValT ['t', 'r', 'u', 'e'] (.bool true)
  | falseT : ValT ['f', 'a', 'l', 's', 'e'] (.bool false)
  | strT : ∀ raw, strBodyOk raw = true → ValT ('"' :: raw ++ ['"']) (.str ⟨raw⟩)
  | numT : ∀ lex, numLexOk lex = true → ValT lex (.num ⟨lex⟩)
  | arrNilT : ∀ w, allJsonWs w = true → ValT ('[' :: w ++ [']']) (.arr [])
  | arrConsT : ∀ t ts v vs, ElemT t v → ArrTailT ts vs →
      ValT ('[' :: t ++ ts) (.arr (v :: vs))
  | objNilT : ∀ w, allJsonWs w = true → ValT ('{' :: w ++ ['}']) (.obj [])
  | objConsT : ∀ t ts kv ms, MemT t kv → ObjTailT ts ms →
      ValT ('{' :: t ++ ts) (.obj (kv :: ms))

/-- One array element: `ws value ws`. -/
inductive ElemT : List Char → Json → Prop where
  | mk : ∀ w1 t w2 v, allJsonWs w1 = true → ValT t v → allJsonWs w2 = true →
      ElemT (w1 ++ t ++ w2) v

/-- What follows an array element: `]` closes, `,` continues. -/
inductive ArrTailT : List Char → List Json → Prop where
  | done : ArrTailT [']'] []
  | more : ∀ t ts v vs, ElemT t v → ArrTailT ts vs →
      ArrTailT (',' :: t ++ ts) (v :: vs)

/-- One object member: `ws "key" ws : ws value ws`. -/
inductive MemT : List Char → String × Json → Prop where
  | mk : ∀ w0 raw w1 w2 t v w3, allJsonWs w0 = true → strBodyOk raw = true →
      allJsonWs w1 = true → allJsonWs w2 = true → ValT t v → allJsonWs w3 = true →
      MemT (w0 ++ '"' :: raw ++ '"' :: w1 ++ ':' :: w2 ++ t ++ w3) (⟨raw⟩, v)

/-- What follows an object member: `}` closes, `,` continues. -/
inductive ObjTailT : List Char → List (String × Json) → Prop where
  | done : ObjTailT ['}'] []
  | more : ∀ t ts kv ms, MemT t kv → ObjTailT ts ms →
      ObjTailT (',' :: t ++ ts) (kv :: ms)

end

/-- The character list is a strict well-formed JSON text for `v`: one value
token with optional surrounding JSON whitespace, exactly what `JSON.parse`
accepts for `v`. -/
def JsonParses (cs : List Char) (v : Json) : Prop :=
  ∃ w1 t w2, allJsonWs w1 = true ∧ allJsonWs w2 = true ∧ ValT t v ∧
    cs = w1 ++ t ++ w2

def isObjJ : Json → Bool
  | .obj _ => true
  | _ => false

/-- The value is a JSON array all of whose elements are objects. -/
def arrOfObjs : Json → Bool
  | .arr l => l.all isObjJ
  | _ => false

/-! ### General lemmas -/

/-- The cache query result is always sorted newest-first. -/
theorem fetchCached_sorted (tbl : List CacheRow) (uid : Json) :
    List.Sorted newerFirst (fetchCached tbl uid) :=
  (List.sorted_insertionSort newerFirst _).sublist (List.take_sublist _ _)

/-! ### Claim theorems -/

/-- C1: for every request whose parsed body carries a truthy (non-empty)
`userId`, the handler terminates in the respond step with a 200 body that is a
recommendations list — never the 400 error body — no matter how the profile
fetch, cache query, prompt construction, model invocation, response parsing or
persistence behave. -/
theorem post_always_responds_ok (env : Env) (b : Json) (userId? : Option Json)
    (hu : jGetUserId b = .ok userId?) (ht : jsFalsyOpt userId? = false) :
    ∃ recs, (POST env (.ok b)).response = .ok recs := by
  obtain ⟨pf, tbl, cerr, mdl, now⟩ := env
  simp only [POST, hu, ht, Bool.false_eq_true, if_false]
  rcases pf with e | dd?
  · exact ⟨_, rfl⟩
  rcases dd? with _ | dd
  · exact ⟨_, rfl⟩
  by_cases hf : jsonFalsy dd = true
  · simp only [hf, if_true]
    exact ⟨_, rfl⟩
  simp only [hf, Bool.false_eq_true, if_false]
  by_cases hc : (!cerr && !(fetchCached tbl (userId?.getD .null)).isEmpty) = true
  · simp only [hc, if_true]
    exact ⟨_, rfl⟩
  simp only [hc, Bool.false_eq_true, if_false]
  rcases hbm : buildUserContent dd with e | msg
  · exact ⟨_, rfl⟩
  rcases mdl with _ | _ | content
  · exact ⟨_, rfl⟩
  · exact ⟨_, rfl⟩
  · exact ⟨_, rfl⟩

/-- C1 witness: a concrete request with `userId = "user-1"`. -/
theorem post_always_responds_ok_witness :
    ∃ recs, (POST (genEnv (.ok "[]")) (.ok bodyFixture)).response = .ok recs :=
  post_always_responds_ok (genEnv (.ok "[]")) bodyFixture (some (.str "user-1")) rfl rfl

/-- C5: when the profile lookup succeeds but the `discovery_data` value is
absent or empty (falsy), the response is exactly the hardcoded default set and
neither the model nor the cache is consulted and nothing is written. -/
theorem no_discovery_data_defaults (env : Env) (b : Json) (userId? : Option Json)
    (dd? : Option Json) (hu : jGetUserId b = .ok userId?)
    (ht : jsFalsyOpt userId? = false) (hp : env.profileFetch = .ok dd?)
    (hdd : jsFalsyOpt dd? = true) :
    POST env (.ok b) = ⟨.ok defaultRecommendations, true, false, false, []⟩ := by
  obtain ⟨pf, tbl, cerr, mdl, now⟩ := env
  simp only at hp
  subst hp
  rcases dd? with _ | dd
  · simp only [POST, hu, ht, Bool.false_eq_true, if_false]
  · have hf : jsonFalsy dd = true := hdd
    simp only [POST, hu, ht, Bool.false_eq_true, if_false, hf, if_true]

/-- C5 witness: a profile row whose `discovery_data` is SQL `NULL`. -/
theorem no_discovery_data_defaults_witness :
    POST ⟨.ok none, [], false, .ok "[]", 7⟩ (.ok bodyFixture) =
      ⟨.ok defaultRecommendations, true, false, false, []⟩ :=
  no_discovery_data_defaults _ bodyFixture (some (.str "user-1")) none rfl rfl rfl rfl

/-- C7: a parsed body whose `userId` is absent, empty or otherwise falsy gets
the 400 response, with no store read, no store write and no model call. -/
theorem missing_userId_bad_request (env : Env) (b : Json) (userId? : Option Json)
    (hu : jGetUserId b = .ok userId?) (hf : jsFalsyOpt userId? = true) :
    POST env (.ok b) = ⟨.badRequest, false, false, false, []⟩ := by
  simp only [POST, hu, hf, if_true]

/-- C7 witness: a body without any `userId` key. -/
theorem missing_userId_bad_request_witness :
    POST (genEnv (.ok "[]")) (.ok (.obj [])) = ⟨.badRequest, false, false, false, []⟩ :=
  missing_userId_bad_request (genEnv (.ok "[]")) (.obj []) none rfl rfl

/-- C10: a request body that is not parseable JSON at all is caught by the
outermost handler, which answers 200 with the default set — not 400. -/
theorem unparseable_body_ok_defaults (env : Env) :
    POST env (.error ()) = ⟨.ok defaultRecommendations, false, false, false, []⟩ := rfl

/-- C8: if the model invocation throws (timeout abort, network error) or
returns no body, the failure stays inside the generation stage: the response
is the default set and nothing is persisted. -/
theorem model_failure_defaults_no_write (env : Env) (b : Json) (userId? : Option Json)
    (dd : Json) (msg : String) (hu : jGetUserId b = .ok userId?)
    (ht : jsFalsyOpt userId? = false) (hp : env.profileFetch = .ok (some dd))
    (hdt : jsonFalsy dd = false)
    (hmiss : env.cacheError = true ∨
      (fetchCached env.roleTable (userId?.getD .null)).isEmpty = true)
    (hbm : buildUserContent dd = .ok msg)
    (hm : env.model = .throwErr ∨ env.model = .noBody) :
    POST env (.ok b) = ⟨.ok defaultRecommendations, true, true, true, []⟩ := by
  obtain ⟨pf, tbl, cerr, mdl, now⟩ := env
  simp only at hp hmiss hm
  subst hp
  have hc : (!cerr && !(fetchCached tbl (userId?.getD .null)).isEmpty) = false := by
    rcases hmiss with hc | hc <;> simp [hc]
  rcases hm with hm | hm <;> subst hm <;>
    simp only [POST, hu, ht, Bool.false_eq_true, if_false, hdt, hc, hbm]

/-- C8 witness: a model call that aborts on the 5-second timeout. -/
theorem model_failure_defaults_no_write_witness :
    POST (genEnv .throwErr) (.ok bodyFixture) =
      ⟨.ok defaultRecommendations, true, true, true, []⟩ :=
  model_failure_defaults_no_write (genEnv .throwErr) bodyFixture
    (some (.str "user-1")) ddFixture
    "Skills: coding\n         Interests: data\n         Values: impact"
    rfl rfl rfl rfl (Or.inr rfl) rfl (Or.inl rfl)

/-- C6: with discovery data present, no cache-query error and a non-empty
cached result, the handler performs no model call and no write, and responds
with exactly the cached rows (the query's newest-first top 3) projected to the
four recommendation fields; the returned rows are sorted newest-first. -/
theorem cache_hit_no_generation (env : Env) (b : Json) (userId? : Option Json)
    (dd : Json) (hu : jGetUserId b = .ok userId?) (ht : jsFalsyOpt userId? = false)
    (hp : env.profileFetch = .ok (some dd)) (hdt : jsonFalsy dd = false)
    (hce : env.cacheError = false)
    (hne : (fetchCached env.roleTable (userId?.getD .null)).isEmpty = false) :
    POST env (.ok b) =
      ⟨.ok ((fetchCached env.roleTable (userId?.getD .null)).map formatCachedRec),
        true, true, false, []⟩ ∧
    List.Sorted newerFirst (fetchCached env.roleTable (userId?.getD .null)) := by
  refine ⟨?_, fetchCached_sorted _ _⟩
  obtain ⟨pf, tbl, cerr, mdl, now⟩ := env
  simp only at hp hce hne ⊢
  subst hp hce
  have hc : (!(false : Bool) && !(fetchCached tbl (userId?.getD .null)).isEmpty) = true := by
    simp [hne]
  simp only [POST, hu, ht, Bool.false_eq_true, if_false, hdt, hc, if_true]

/-- C6 witness: two cached rows for the user; the newer one comes first. -/
theorem cache_hit_no_generation_witness :
    POST ⟨.ok (some ddFixture), [rowA, rowB], false, .throwErr, 7⟩ (.ok bodyFixture) =
      ⟨.ok ((fetchCached [rowA, rowB] ((some (Json.str "user-1")).getD .null)).map
        formatCachedRec), true, true, false, []⟩ ∧
    List.Sorted newerFirst (fetchCached [rowA, rowB] ((some (Json.str "user-1")).getD .null)) :=
  cache_hit_no_generation ⟨.ok (some ddFixture), [rowA, rowB], false, .throwErr, 7⟩
    bodyFixture (some (.str "user-1")) ddFixture rfl rfl rfl rfl rfl rfl

/-- C2, counterexample: with a valid `userId` and a reachable generation
stage, a model reply of `[]` is returned as a zero-length recommendations
array, and a reply of `[{"x":1}]` is returned with its element carrying none
of the four required keys — refuting both the length bound and the key
guarantee of the claim. -/
theorem generated_reply_passthrough_cx :
    (POST (genEnv (.ok "[]")) (.ok bodyFixture)).response = .ok [] ∧
    (POST (genEnv (.ok "[\x7b\"x\":1\x7d]")) (.ok bodyFixture)).response =
      .ok [Json.obj [("x", Json.num "1")]] ∧
    jLookup (Json.obj [("x", Json.num "1")]) "role_title" = none :=
  ⟨rfl, rfl, rfl⟩

/-- C2, amended: for every request with a valid non-empty `userId` that
reaches the generation stage, the returned recommendations value is the
cleaned-and-parsed model reply when that parses to an array (possibly empty,
elements passed through without key validation), a singleton wrapping when it
parses to a non-array object or to JSON null, and the default 3-element set
(which does carry all four keys) when parsing throws or yields a string,
number or boolean. -/
theorem generated_reply_passthrough (env : Env) (b : Json) (userId? : Option Json)
    (dd : Json) (msg : String) (content : String)
    (hu : jGetUserId b = .ok userId?) (ht : jsFalsyOpt userId? = false)
    (hp : env.profileFetch = .ok (some dd)) (hdt : jsonFalsy dd = false)
    (hmiss : env.cacheError = true ∨
      (fetchCached env.roleTable (userId?.getD .null)).isEmpty = true)
    (hbm : buildUserContent dd = .ok msg) (hm : env.model = .ok content) :
    (POST env (.ok b)).response = .ok (parseStage content) ∧
    (match parseJsonF (cleanJson content) with
     | some (.arr l) => parseStage content = l
     | some (.obj ms) => parseStage content = [Json.obj ms]
     | some .null => parseStage content = [Json.null]
     | some _ => parseStage content = defaultRecommendations
     | none => parseStage content = defaultRecommendations) := by
  constructor
  · obtain ⟨pf, tbl, cerr, mdl, now⟩ := env
    simp only at hp hmiss hm
    subst hp hm
    have hc : (!cerr && !(fetchCached tbl (userId?.getD .null)).isEmpty) = false := by
      rcases hmiss with hc | hc <;> simp [hc]
    simp only [POST, hu, ht, Bool.false_eq_true, if_false, hdt, hc, hbm]
  · rcases hpj : parseJsonF (cleanJson content) with _ | v
    · simp only [parseStage, hpj]
    · cases v <;> simp only [parseStage, hpj]

/-- C2 witness: the amended statement at the `[]` reply. -/
theorem generated_reply_passthrough_witness :
    (POST (genEnv (.ok "[]")) (.ok bodyFixture)).response = .ok (parseStage "[]") :=
  (generated_reply_passthrough (genEnv (.ok "[]")) bodyFixture (some (.str "user-1"))
    ddFixture "Skills: coding\n         Interests: data\n         Values: impact" "[]"
    rfl rfl rfl rfl (Or.inr rfl) rfl rfl).1

/-- C3: contrary to the persist-only-after-success design, a model reply that
fails normalization (here some prose that is not JSON) makes the handler fall
back to the defaults and then run the persistence loop on them: three default
rows tagged with the `userId` are written to `role_recommendations` on the
parse-failure path. -/
theorem parse_failure_persists_defaults :
    (POST (genEnv (.ok "I cannot answer that.")) (.ok bodyFixture)).response =
      .ok defaultRecommendations ∧
    (POST (genEnv (.ok "I cannot answer that.")) (.ok bodyFixture)).writes =
      defaultRecommendations.map (insertRow (.str "user-1") 7) ∧
    ((POST (genEnv (.ok "I cannot answer that.")) (.ok bodyFixture)).writes).length = 3 :=
  ⟨rfl, rfl, rfl⟩

/-- C4: a profile whose `values` and `interests` facets are entirely absent
makes prompt construction throw (`.selected` of `undefined`) instead of
rendering empty tag lists; the outer catch answers with the defaults and the
model is never invoked. -/
theorem absent_facet_skips_model :
    buildUserContent ddPartial = .error () ∧
    POST ⟨.ok (some ddPartial), [], false, .ok "[]", 7⟩ (.ok bodyFixture) =
      ⟨.ok defaultRecommendations, true, true, false, []⟩ :=
  ⟨rfl, rfl⟩

/-! ### Lemmas towards C9 (normalizer idempotence on strict JSON) -/

theorem allJsonWs_mem {w : List Char} (hw : allJsonWs w = true) {c : Char}
    (hc : c ∈ w) : isJsonWs c = true := by
  simp only [allJsonWs, List.all_eq_true] at hw
  exact hw c hc

theorem allJsonWs_tail {c : Char} {w : List Char} (hw : allJsonWs (c :: w) = true) :
    allJsonWs w = true := by
  simp only [allJsonWs, List.all_cons, Bool.and_eq_true] at hw ⊢
  exact hw.2

theorem allJsonWs_rev {w : List Char} (hw : allJsonWs w = true) :
    allJsonWs w.reverse = true := by
  simp only [allJsonWs, List.all_eq_true] at hw ⊢
  exact fun c hc => hw c (List.mem_reverse.mp hc)

theorem jsonWs_cases {c : Char} (h : isJsonWs c = true) :
    c = ' ' ∨ c = '\t' ∨ c = '\n' ∨ c = '\r' := by
  simpa [isJsonWs] using h

theorem jsonWs_isSpaceJS {c : Char} (h : isJsonWs c = true) : isSpaceJS c = true := by
  rcases jsonWs_cases h with rfl | rfl | rfl | rfl <;> decide

theorem jsonWs_brackets {c : Char} (h : isJsonWs c = true) :
    c ≠ '[' ∧ c ≠ ']' ∧ c ≠ '{' ∧ c ≠ '}' := by
  rcases jsonWs_cases h with rfl | rfl | rfl | rfl <;> exact ⟨by decide, by decide, by decide, by decide⟩

theorem dropWhile_append_all {p : Char → Bool} (w l : List Char)
    (hw : ∀ c ∈ w, p c = true) : (w ++ l).dropWhile p = l.dropWhile p := by
  induction w with
  | nil => rfl
  | cons c tl ih =>
    have hc := hw c (List.mem_cons_self c tl)
    simp only [List.cons_append, List.dropWhile_cons, hc, if_true]
    exact ih (fun d hd => hw d (List.mem_cons_of_mem _ hd))

theorem dropWhile_cons_neg {p : Char → Bool} (c : Char) (l : List Char)
    (hc : p c = false) : (c :: l).dropWhile p = c :: l := by
  simp [List.dropWhile_cons, hc]

/-- Trimming a bracketed token with JSON whitespace around it yields exactly
the token. -/
theorem jsTrim_bracketed (w1 mid w2 : List Char)
    (hw1 : allJsonWs w1 = true) (hw2 : allJsonWs w2 = true) :
    jsTrimChars (w1 ++ ('[' :: mid ++ [']']) ++ w2) = '[' :: mid ++ [']'] := by
  have h1 : ∀ c ∈ w1, isSpaceJS c = true :=
    fun c hc => jsonWs_isSpaceJS (allJsonWs_mem hw1 hc)
  have h2 : ∀ c ∈ w2.reverse, isSpaceJS c = true :=
    fun c hc => jsonWs_isSpaceJS (allJsonWs_mem hw2 (List.mem_reverse.mp hc))
  unfold jsTrimChars
  rw [List.append_assoc, dropWhile_append_all w1 _ h1]
  rw [show (('[' :: mid ++ [']']) ++ w2 : List Char) = '[' :: (mid ++ [']'] ++ w2) by simp]
  rw [dropWhile_cons_neg '[' _ (by decide)]
  rw [show ('[' :: (mid ++ [']'] ++ w2) : List Char).reverse
        = w2.reverse ++ (']' :: (mid.reverse ++ ['['])) by simp]
  rw [dropWhile_append_all w2.reverse _ h2]
  rw [dropWhile_cons_neg ']' _ (by decide)]
  simp

theorem listStartsWith_cons_ne {c p : Char} (cs ps : List Char) (h : ¬ c = p) :
    listStartsWith (c :: cs) (p :: ps) = false := by
  simp [listStartsWith, h]

theorem fence_json_false (tl : List Char) :
    listStartsWith ('[' :: tl) ("```json".data) = false := by
  rw [show "```json".data = '\x60' :: "``json".data from rfl]
  exact listStartsWith_cons_ne _ _ (by decide)

theorem fence_plain_false (tl : List Char) :
    listStartsWith ('[' :: tl) ("```".data) = false := by
  rw [show "```".data = '\x60' :: "``".data from rfl]
  exact listStartsWith_cons_ne _ _ (by decide)

theorem wsBrace_ws (w rest : List Char) (hw : allJsonWs w = true) :
    wsBrace (w ++ '{' :: rest) = some (w, rest) := by
  induction w with
  | nil => rfl
  | cons c tl ih =>
    have hc : isJsonWs c = true := allJsonWs_mem hw (List.mem_cons_self _ _)
    have hne : ¬ c = '{' := (jsonWs_brackets hc).2.2.1
    have hsp : isSpaceJS c = true := jsonWs_isSpaceJS hc
    rw [List.cons_append]
    unfold wsBrace
    rw [if_neg hne, if_pos hsp, ih (allJsonWs_tail hw)]
    rfl

theorem revSkipToBrace_ws (w rest : List Char) (hw : allJsonWs w = true) :
    revSkipToBrace (w ++ '}' :: rest) = some rest := by
  induction w with
  | nil => rfl
  | cons c tl ih =>
    have hc : isJsonWs c = true := allJsonWs_mem hw (List.mem_cons_self _ _)
    have hne : ¬ c = '}' := (jsonWs_brackets hc).2.2.2
    have hsp : isSpaceJS c = true := jsonWs_isSpaceJS hc
    rw [List.cons_append]
    unfold revSkipToBrace
    rw [if_neg hne, if_pos hsp, ih (allJsonWs_tail hw)]

theorem revCloseHead_true (w rest : List Char) (hw : allJsonWs w = true) :
    revCloseHead (']' :: (w ++ '}' :: rest)) = true := by
  simp only [revCloseHead]
  rw [revSkipToBrace_ws w rest hw]
  rfl

theorem greedyCloseRev_of_head {cs : List Char} (hne : cs ≠ [])
    (h : revCloseHead cs = true) : greedyCloseRev cs = some cs := by
  cases cs with
  | nil => cases hne rfl
  | cons c tl => simp [greedyCloseRev, h]

theorem greedyClose_full (mid w : List Char) (hw : allJsonWs w = true) :
    greedyClose (mid ++ '}' :: w ++ [']']) = some (mid ++ '}' :: w ++ [']']) := by
  have hrev : (mid ++ '}' :: w ++ [']'] : List Char).reverse
      = ']' :: (w.reverse ++ '}' :: mid.reverse) := by simp
  have h1 : greedyCloseRev ((mid ++ '}' :: w ++ [']'] : List Char).reverse)
      = some ((mid ++ '}' :: w ++ [']'] : List Char).reverse) := by
    rw [hrev]
    exact greedyCloseRev_of_head (by simp)
      (revCloseHead_true w.reverse mid.reverse (allJsonWs_rev hw))
  unfold greedyClose
  rw [h1]
  simp

theorem tryOpen_full (w1 mid w2 : List Char)
    (hw1 : allJsonWs w1 = true) (hw2 : allJsonWs w2 = true) :
    tryOpen ('[' :: (w1 ++ '{' :: (mid ++ '}' :: w2 ++ [']']))) =
      some ('[' :: (w1 ++ '{' :: (mid ++ '}' :: w2 ++ [']']))) := by
  simp only [tryOpen]
  rw [wsBrace_ws w1 _ hw1]
  simp only []
  rw [greedyClose_full mid w2 hw2]
  simp

theorem findMatch_head {c : Char} {tl m : List Char} (h : tryOpen (c :: tl) = some m) :
    findMatch (c :: tl) = some m := by
  simp only [findMatch, h]

theorem tryOpen_head_ne {c : Char} (tl : List Char) (h : ¬ c = '[') :
    tryOpen (c :: tl) = none := by
  unfold tryOpen
  split
  · next heq => injection heq with h1 h2; exact absurd h1 h
  · rfl

theorem wsBrace_rbracket (w : List Char) (hw : allJsonWs w = true) :
    wsBrace (w ++ [']']) = none := by
  induction w with
  | nil => rfl
  | cons c tl ih =>
    have hc : isJsonWs c = true := allJsonWs_mem hw (List.mem_cons_self _ _)
    have hne : ¬ c = '{' := (jsonWs_brackets hc).2.2.1
    have hsp : isSpaceJS c = true := jsonWs_isSpaceJS hc
    rw [List.cons_append]
    unfold wsBrace
    rw [if_neg hne, if_pos hsp, ih (allJsonWs_tail hw)]
    rfl

theorem findMatch_ws_rbracket (w : List Char) (hw : allJsonWs w = true) :
    findMatch (w ++ [']']) = none := by
  induction w with
  | nil => rfl
  | cons c tl ih =>
    have hc : isJsonWs c = true := allJsonWs_mem hw (List.mem_cons_self _ _)
    have hne : ¬ c = '[' := (jsonWs_brackets hc).1
    rw [List.cons_append]
    unfold findMatch
    rw [tryOpen_head_ne _ hne, ih (allJsonWs_tail hw)]

theorem findMatch_empty_arr (w : List Char) (hw : allJsonWs w = true) :
    findMatch ('[' :: (w ++ [']'])) = none := by
  have h1 : tryOpen ('[' :: (w ++ [']'])) = none := by
    simp only [tryOpen]
    rw [wsBrace_rbracket w hw]
  unfold findMatch
  rw [h1, findMatch_ws_rbracket w hw]

theorem objTailT_ends : ∀ (n : Nat) (ts : List Char) (ms : List (String × Json)),
    ts.length ≤ n → ObjTailT ts ms → ∃ t0, ts = t0 ++ ['}'] := by
  intro n
  induction n with
  | zero =>
    intro ts ms hl h
    cases h with
    | done => simp at hl
    | more t ts' kv ms' hm hts' => simp at hl
  | succ n ih =>
    intro ts ms hl h
    cases h with
    | done => exact ⟨[], rfl⟩
    | more t ts' kv ms' hm hts' =>
      have hlen : ts'.length ≤ n := by
        simp only [List.cons_append, List.length_cons, List.length_append] at hl
        omega
      obtain ⟨t0, ht0⟩ := ih ts' ms' hlen hts'
      refine ⟨',' :: t ++ t0, ?_⟩
      rw [ht0]
      simp

theorem valT_obj_shape : ∀ (t : List Char) (ms : List (String × Json)),
    ValT t (.obj ms) → ∃ mid, t = '{' :: mid ++ ['}'] := by
  intro t ms h
  cases h with
  | objNilT w hw => exact ⟨w, rfl⟩
  | objConsT t' ts kv ms' hm hts =>
    obtain ⟨t0, ht0⟩ := objTailT_ends ts.length ts ms' le_rfl hts
    refine ⟨t' ++ t0, ?_⟩
    rw [ht0]
    simp

theorem elemT_shape {t : List Char} {v : Json} (h : ElemT t v) :
    ∃ w1 t0 w2, allJsonWs w1 = true ∧ ValT t0 v ∧ allJsonWs w2 = true ∧
      t = w1 ++ t0 ++ w2 := by
  cases h with
  | mk w1 t0 w2 v hw1 hv hw2 => exact ⟨w1, t0, w2, hw1, hv, hw2, rfl⟩

theorem isObjJ_obj {v : Json} (hv : isObjJ v = true) : ∃ ms, v = Json.obj ms := by
  cases v <;> first | exact ⟨_, rfl⟩ | simp [isObjJ] at hv

theorem arrTailT_ends : ∀ (n : Nat) (ts : List Char) (vs : List Json),
    ts.length ≤ n → ArrTailT ts vs → (∀ u ∈ vs, isObjJ u = true) →
    ts = [']'] ∨ ∃ mid w, allJsonWs w = true ∧ ts = mid ++ '}' :: w ++ [']'] := by
  intro n
  induction n with
  | zero =>
    intro ts vs hl h _
    cases h with
    | done => simp at hl
    | more t ts' v vs' he hts' => simp at hl
  | succ n ih =>
    intro ts vs hl h hobj
    cases h with
    | done => exact Or.inl rfl
    | more t ts' v vs' he hts' =>
      have hlen : ts'.length ≤ n := by
        simp only [List.cons_append, List.length_cons, List.length_append] at hl
        omega
      have hobj' : ∀ u ∈ vs', isObjJ u = true :=
        fun u hu => hobj u (List.mem_cons_of_mem _ hu)
      obtain ⟨w1, t0, w2, hw1, hval, hw2, rfl⟩ := elemT_shape he
      obtain ⟨ms, rfl⟩ := isObjJ_obj (hobj v (List.mem_cons_self _ _))
      obtain ⟨mid0, rfl⟩ := valT_obj_shape t0 ms hval
      rcases ih ts' vs' hlen hts' hobj' with rfl | ⟨mid', w', hw', rfl⟩
      · refine Or.inr ⟨',' :: w1 ++ '{' :: mid0, w2, hw2, ?_⟩
        simp
      · refine Or.inr ⟨',' :: (w1 ++ ('{' :: mid0 ++ ['}']) ++ w2) ++ mid', w', hw', ?_⟩
        simp

theorem valT_arr_nil_shape {t : List Char} (h : ValT t (.arr [])) :
    ∃ w, allJsonWs w = true ∧ t = '[' :: w ++ [']'] := by
  cases h with
  | arrNilT w hw => exact ⟨w, hw, rfl⟩

theorem valT_arr_objs_shape {t : List Char} {v0 : Json} {vs : List Json}
    (h : ValT t (.arr (v0 :: vs))) (hobj : ∀ u ∈ v0 :: vs, isObjJ u = true) :
    ∃ w1 mid w2, allJsonWs w1 = true ∧ allJsonWs w2 = true ∧
      t = '[' :: w1 ++ '{' :: mid ++ '}' :: w2 ++ [']'] := by
  cases h with
  | arrConsT t' ts v vs' he hts =>
    obtain ⟨w1, t0, w2, hw1, hval, hw2, rfl⟩ := elemT_shape he
    obtain ⟨ms, rfl⟩ := isObjJ_obj (hobj v0 (List.mem_cons_self _ _))
    obtain ⟨mid0, rfl⟩ := valT_obj_shape t0 ms hval
    rcases arrTailT_ends ts.length ts vs le_rfl hts
        (fun u hu => hobj u (List.mem_cons_of_mem _ hu)) with rfl | ⟨mid', w', hw', rfl⟩
    · exact ⟨w1, mid0, w2, hw1, hw2, by simp⟩
    · exact ⟨w1, mid0 ++ '}' :: w2 ++ mid', w', hw1, hw', by simp⟩

/-- C9: the normalization steps are the identity on already-strict input: a
string that is strict well-formed JSON denoting an array of objects still
parses to the same structure after the trimming, fence-stripping and
array-extraction steps of the cleaner. -/
theorem normalizer_id_on_strict_json (s : String) (v : Json)
    (h : JsonParses s.data v) (hv : arrOfObjs v = true) :
    JsonParses (cleanJson s).data v := by
  obtain ⟨w1, t, w2, hw1, hw2, hval, heq⟩ := h
  refine ⟨[], t, [], rfl, rfl, hval, ?_⟩
  show cleanChars s.data = [] ++ t ++ []
  rw [List.nil_append, List.append_nil]
  rcases v with _ | b | lex | sv | l | ms
  · exact absurd hv (by simp [arrOfObjs])
  · exact absurd hv (by simp [arrOfObjs])
  · exact absurd hv (by simp [arrOfObjs])
  · exact absurd hv (by simp [arrOfObjs])
  case obj => exact absurd hv (by simp [arrOfObjs])
  case arr =>
    rcases l with _ | ⟨v0, vs⟩
    · obtain ⟨w, hw, rfl⟩ := valT_arr_nil_shape hval
      have htr : jsTrimChars s.data = '[' :: (w ++ [']']) := by
        rw [heq]
        have h0 := jsTrim_bracketed w1 w w2 hw1 hw2
        simpa using h0
      simp only [cleanChars]
      rw [htr, fence_json_false, fence_plain_false]
      simp only [Bool.false_eq_true, if_false]
      rw [findMatch_empty_arr w hw]
      simp
    · have hobj : ∀ u ∈ v0 :: vs, isObjJ u = true := by
        simpa [arrOfObjs, List.all_eq_true] using hv
      obtain ⟨W1, mid, W2, hW1, hW2, rfl⟩ := valT_arr_objs_shape hval hobj
      have htr : jsTrimChars s.data = '[' :: (W1 ++ '{' :: (mid ++ '}' :: W2 ++ [']'])) := by
        rw [heq]
        have h0 := jsTrim_bracketed w1 (W1 ++ '{' :: mid ++ '}' :: W2) w2 hw1 hw2
        simpa using h0
      simp only [cleanChars]
      rw [htr, fence_json_false, fence_plain_false]
      simp only [Bool.false_eq_true, if_false]
      rw [findMatch_head (tryOpen_full W1 mid W2 hW1 hW2)]
      simp

/-- C9 witness: the concrete strict JSON text `[\x7b\x7d]` (a one-object
array). -/
theorem normalizer_id_on_strict_json_witness :
    JsonParses (cleanJson "[\x7b\x7d]").data (.arr [.obj []]) :=
  normalizer_id_on_strict_json "[\x7b\x7d]" (.arr [.obj []])
    ⟨[], ['[', '\x7b', '\x7d', ']'], [], rfl, rfl,
      ValT.arrConsT _ _ _ _
        (ElemT.mk [] ['\x7b', '\x7d'] [] _ rfl (ValT.objNilT [] rfl) rfl)
        ArrTailT.done, rfl⟩ rfl
